import Mathlib

/-!
Verification development for the resume-matcher repository.

The development shallowly embeds the deterministic core of the repository:

* the deterministic scoring normalizer (`clampScore`, `roundTo1`,
  `recomputeCompositeScore`, `normalizeScoringResult`) from the scoring route
  and the evaluate-candidates workflow (the two copies are identical);
* the JSON-recovery parser `extractJsonObject` and the tolerant field
  normalizer `normalizeStructuredResume` of the resume structurer agent;
* the precondition checks of the workflow steps `parseJobStep` and
  `scoreResumesStep`.

Modelling conventions:

* JavaScript numbers are modelled as rationals (`ℚ`); `Math.round` is
  `fun q => ⌊q + 1/2⌋`, which agrees with JavaScript's round-half-toward-+∞
  convention on all rationals.
* `String.prototype.localeCompare` is modelled as code-point lexicographic
  comparison (`strLe`), the deterministic reading used by the specification.
* `Array.prototype.sort`, which is a stable sort in ECMAScript 2019+, is
  modelled by `List.insertionSort`, which is stable for the same comparator
  preorder; a stable sort is uniquely determined by the comparator, so the
  two agree.
* Fallible code returns `Except String`; a JavaScript `throw` is
  `Except.error` carrying the thrown message.
-/

namespace ResumeMatcher

/-! ## Numeric helpers (src/unnamed/part_000 lines 13-26, part_005 lines 10-25) -/

/-- Weights record, from `SCORE_WEIGHTS` in the source. -/
structure Weights where
  skills : ℚ
  experience : ℚ
  education : ℚ
  keywords : ℚ

/-- The fixed rubric weights of the source. -/
def SCORE_WEIGHTS : Weights :=
  { skills := 0.4, experience := 0.3, education := 0.15, keywords := 0.15 }

/-- JavaScript `Math.round`: nearest integer, halves toward positive infinity. -/
def mathRound (q : ℚ) : ℤ := ⌊q + 1/2⌋

/-- Source `clampScore`: `Math.min(100, Math.max(0, value))`. -/
def clampScore (value : ℚ) : ℚ := min 100 (max 0 value)

/-- Source `roundTo1`: `Math.round(value * 10) / 10`. -/
def roundTo1 (value : ℚ) : ℚ := (mathRound (value * 10) : ℚ) / 10

/-! ## String comparison

`a.id.localeCompare(b.id)` is modelled as code-point lexicographic order:
`sLe` on the character lists, `strLe` on strings. -/

/-- Lexicographic less-or-equal on character lists, comparing code points. -/
def sLe : List Char → List Char → Bool
  | [], _ => true
  | _ :: _, [] => false
  | a :: as, b :: bs => if a = b then sLe as bs else decide (a.toNat ≤ b.toNat)

/-- Lexicographic less-or-equal on strings (model of `localeCompare(..) <= 0`). -/
def strLe (a b : String) : Bool := sLe a.toList b.toList

theorem sLe_refl : ∀ l : List Char, sLe l l = true
  | [] => rfl
  | _ :: as => by simp [sLe, sLe_refl as]

theorem sLe_total : ∀ l₁ l₂ : List Char, sLe l₁ l₂ = true ∨ sLe l₂ l₁ = true
  | [], _ => Or.inl rfl
  | _ :: _, [] => Or.inr rfl
  | a :: as, b :: bs => by
    by_cases hab : a = b
    · subst hab
      simpa [sLe] using sLe_total as bs
    · have hba : b ≠ a := fun h => hab h.symm
      rcases Nat.le_total a.toNat b.toNat with h | h
      · exact Or.inl (by simp [sLe, hab, h])
      · exact Or.inr (by simp [sLe, hba, h])

theorem sLe_antisymm : ∀ l₁ l₂ : List Char,
    sLe l₁ l₂ = true → sLe l₂ l₁ = true → l₁ = l₂
  | [], [], _, _ => rfl
  | [], _ :: _, _, h₂ => by simp [sLe] at h₂
  | _ :: _, [], h₁, _ => by simp [sLe] at h₁
  | a :: as, b :: bs, h₁, h₂ => by
    by_cases hab : a = b
    · subst hab
      simp only [sLe, if_pos rfl] at h₁ h₂
      exact congrArg (a :: ·) (sLe_antisymm as bs h₁ h₂)
    · have hba : b ≠ a := fun h => hab h.symm
      simp only [sLe, if_neg hab, decide_eq_true_eq] at h₁
      simp only [sLe, if_neg hba, decide_eq_true_eq] at h₂
      exact absurd (Char.eq_of_val_eq (by
        have : a.toNat = b.toNat := Nat.le_antisymm h₁ h₂
        exact UInt32.eq_of_toBitVec_eq (by
          have := congrArg (BitVec.ofNat 32) this
          simpa [Char.toNat, UInt32.toNat] using this))) hab

theorem sLe_trans : ∀ l₁ l₂ l₃ : List Char,
    sLe l₁ l₂ = true → sLe l₂ l₃ = true → sLe l₁ l₃ = true
  | [], _, _, _, _ => rfl
  | _ :: _, [], _, h₁, _ => by simp [sLe] at h₁
  | _ :: _, _ :: _, [], _, h₂ => by simp [sLe] at h₂
  | a :: as, b :: bs, c :: cs, h₁, h₂ => by
    by_cases hab : a = b
    · subst hab
      simp only [sLe, if_pos rfl] at h₁
      by_cases hac : a = c
      · subst hac
        simp only [sLe, if_pos rfl] at h₂ ⊢
        exact sLe_trans as bs cs h₁ h₂
      · simpa [sLe, hac] using (by simpa [sLe, hac] using h₂ : decide (a.toNat ≤ c.toNat) = true)
    · simp only [sLe, if_neg hab, decide_eq_true_eq] at h₁
      by_cases hbc : b = c
      · subst hbc
        have hac : a ≠ b := hab
        simp [sLe, hac, h₁]
      · simp only [sLe, if_neg hbc, decide_eq_true_eq] at h₂
        have hle : a.toNat ≤ c.toNat := Nat.le_trans h₁ h₂
        by_cases hac : a = c
        · subst hac
          have : a.toNat = b.toNat := Nat.le_antisymm h₁ h₂
          exact absurd (Char.eq_of_val_eq (UInt32.eq_of_toBitVec_eq (by
            have := congrArg (BitVec.ofNat 32) this
            simpa [Char.toNat, UInt32.toNat] using this))) hab
        · simp [sLe, hac, hle]

theorem strLe_refl (a : String) : strLe a a = true := sLe_refl _

theorem strLe_total (a b : String) : strLe a b = true ∨ strLe b a = true :=
  sLe_total _ _

theorem strLe_antisymm {a b : String} (h₁ : strLe a b = true) (h₂ : strLe b a = true) :
    a = b := by
  have h := sLe_antisymm _ _ h₁ h₂
  cases a; cases b
  simpa [String.toList] using congrArg String.mk h

theorem strLe_trans {a b c : String} (h₁ : strLe a b = true) (h₂ : strLe b c = true) :
    strLe a c = true :=
  sLe_trans _ _ _ h₁ h₂

/-! ## Data model (src/unnamed/part_004, `inlineResumeScore` and `ScorerOutputSchema`) -/

/-- One score entry, the `inlineResumeScore` shape of the schema file. -/
structure ResumeScore where
  id : String
  skillsMatchScore : ℚ
  skillsMatchWeight : ℚ
  skillsMatchReasoning : String
  experienceRelevanceScore : ℚ
  experienceRelevanceWeight : ℚ
  experienceRelevanceReasoning : String
  educationMatchScore : ℚ
  educationMatchWeight : ℚ
  educationMatchReasoning : String
  keywordDensityScore : ℚ
  keywordDensityWeight : ℚ
  keywordDensityReasoning : String
  compositeScore : ℚ
  summary : String
  matchedSkills : List String
  missingSkills : List String
  matchedKeywords : List String
  meetsThreshold : Bool
deriving DecidableEq

/-- The scorer output record, the `ScorerOutputSchema` shape. -/
structure ScorerOutput where
  scores : List ResumeScore
  bestMatch : ResumeScore
  bestMatchMeetsThreshold : Bool
  threshold : ℚ
deriving DecidableEq

/-! ## Deterministic normalizer (src/unnamed/part_000 lines 28-71, part_005 lines 27-70) -/

/-- Source `recomputeCompositeScore`. -/
def recomputeCompositeScore (score : ResumeScore) : ℚ :=
  let skills := clampScore score.skillsMatchScore
  let experience := clampScore score.experienceRelevanceScore
  let education := clampScore score.educationMatchScore
  let keywords := clampScore score.keywordDensityScore
  roundTo1
    (skills * SCORE_WEIGHTS.skills +
      experience * SCORE_WEIGHTS.experience +
      education * SCORE_WEIGHTS.education +
      keywords * SCORE_WEIGHTS.keywords)

/-- The per-entry update applied inside `normalizeScoringResult`'s `.map`:
spread the old entry and overwrite `compositeScore` and `meetsThreshold`. -/
def normalizeScoreEntry (threshold : ℚ) (score : ResumeScore) : ResumeScore :=
  let compositeScore := recomputeCompositeScore score
  { score with
    compositeScore := compositeScore
    meetsThreshold := decide (threshold ≤ compositeScore) }

/-- The comparator of `normalizeScoringResult`'s `.sort` read as a
less-or-equal relation: `cmp(a,b) <= 0` where
`cmp(a,b) = b.compositeScore - a.compositeScore`, ties by
`a.id.localeCompare(b.id)`. -/
def scoreLE (a b : ResumeScore) : Prop :=
  b.compositeScore < a.compositeScore ∨
    (a.compositeScore = b.compositeScore ∧ strLe a.id b.id = true)

instance : DecidableRel scoreLE := fun a b => by
  unfold scoreLE; exact inferInstance

instance : IsRefl ResumeScore scoreLE :=
  ⟨fun _ => Or.inr ⟨rfl, strLe_refl _⟩⟩

instance : IsTotal ResumeScore scoreLE := by
  refine ⟨fun a b => ?_⟩
  rcases lt_trichotomy a.compositeScore b.compositeScore with h | h | h
  · exact Or.inr (Or.inl h)
  · rcases strLe_total a.id b.id with hs | hs
    · exact Or.inl (Or.inr ⟨h, hs⟩)
    · exact Or.inr (Or.inr ⟨h.symm, hs⟩)
  · exact Or.inl (Or.inl h)

instance : IsTrans ResumeScore scoreLE := by
  refine ⟨fun a b c hab hbc => ?_⟩
  rcases hab with h₁ | ⟨e₁, s₁⟩
  · rcases hbc with h₂ | ⟨e₂, _⟩
    · exact Or.inl (h₂.trans h₁)
    · exact Or.inl (e₂ ▸ h₁)
  · rcases hbc with h₂ | ⟨e₂, s₂⟩
    · exact Or.inl (e₁ ▸ h₂)
    · exact Or.inr ⟨e₁.trans e₂, strLe_trans s₁ s₂⟩

/-- Source `normalizeScoringResult`: map each entry through the composite /
threshold recomputation, stable-sort by the comparator, fail on an empty
list, then rebuild the output record with the caller-supplied threshold. -/
def normalizeScoringResult (result : ScorerOutput) (threshold : ℚ) :
    Except String ScorerOutput :=
  let normalizedScores :=
    List.insertionSort scoreLE (result.scores.map (normalizeScoreEntry threshold))
  match normalizedScores with
  | [] => Except.error "Scoring agent returned no score items."
  | bestMatch :: rest =>
    Except.ok
      { result with
        scores := bestMatch :: rest
        bestMatch := bestMatch
        bestMatchMeetsThreshold := bestMatch.meetsThreshold
        threshold := threshold }

/-! ### Basic lemmas about the normalizer -/

/-- Shape of a successful normalization: the output record is built from the
sorted, per-entry-normalized list. -/
theorem normalize_ok_shape {result : ScorerOutput} {threshold : ℚ} {out : ScorerOutput}
    (h : normalizeScoringResult result threshold = Except.ok out) :
    out.scores =
        List.insertionSort scoreLE (result.scores.map (normalizeScoreEntry threshold)) ∧
      out.bestMatchMeetsThreshold = out.bestMatch.meetsThreshold ∧
      out.threshold = threshold ∧
      ∃ rest, out.scores = out.bestMatch :: rest := by
  unfold normalizeScoringResult at h
  rcases hs : List.insertionSort scoreLE (result.scores.map (normalizeScoreEntry threshold)) with
    _ | ⟨best, rest⟩
  · rw [hs] at h
    cases h
  · rw [hs] at h
    cases h
    simp [hs]

theorem normalizeScoreEntry_composite (threshold : ℚ) (e : ResumeScore) :
    (normalizeScoreEntry threshold e).compositeScore = recomputeCompositeScore e := rfl

theorem normalizeScoreEntry_preserves_dims (threshold : ℚ) (e : ResumeScore) :
    (normalizeScoreEntry threshold e).skillsMatchScore = e.skillsMatchScore ∧
      (normalizeScoreEntry threshold e).experienceRelevanceScore = e.experienceRelevanceScore ∧
      (normalizeScoreEntry threshold e).educationMatchScore = e.educationMatchScore ∧
      (normalizeScoreEntry threshold e).keywordDensityScore = e.keywordDensityScore :=
  ⟨rfl, rfl, rfl, rfl⟩

/-- `recomputeCompositeScore` only reads the four dimension scores, so it is
unchanged by the per-entry normalization. -/
theorem recompute_normalizeScoreEntry (threshold : ℚ) (e : ResumeScore) :
    recomputeCompositeScore (normalizeScoreEntry threshold e) = recomputeCompositeScore e := rfl

/-- The per-entry normalization is idempotent. -/
theorem normalizeScoreEntry_idem (threshold : ℚ) (e : ResumeScore) :
    normalizeScoreEntry threshold (normalizeScoreEntry threshold e) =
      normalizeScoreEntry threshold e := by
  cases e; rfl

/-- Membership in the normalized output: every output entry is the per-entry
normalization of some input entry. -/
theorem mem_normalize_scores {result : ScorerOutput} {threshold : ℚ} {out : ScorerOutput}
    (h : normalizeScoringResult result threshold = Except.ok out)
    {e : ResumeScore} (he : e ∈ out.scores) :
    ∃ e₀ ∈ result.scores, e = normalizeScoreEntry threshold e₀ := by
  obtain ⟨hscores, -, -, -⟩ := normalize_ok_shape h
  rw [hscores] at he
  have := (List.perm_insertionSort scoreLE
    (result.scores.map (normalizeScoreEntry threshold))).subset he
  obtain ⟨e₀, he₀, rfl⟩ := List.mem_map.mp this
  exact ⟨e₀, he₀, rfl⟩

/-! ## Claim theorems for the normalizer -/

/-- C1: after normalization every entry's `compositeScore` is the
round-to-one-decimal of the weighted sum `0.40·skills + 0.30·experience +
0.15·education + 0.15·keywords` of its (clamped) dimension scores; the
externally supplied `compositeScore` is discarded: rewriting every input
entry's `compositeScore` arbitrarily does not change the result. -/
theorem composite_formula_after_normalization
    (result : ScorerOutput) (threshold : ℚ) (out : ScorerOutput)
    (h : normalizeScoringResult result threshold = Except.ok out) :
    (∀ e ∈ out.scores,
        e.compositeScore =
          roundTo1
            (clampScore e.skillsMatchScore * 0.4 +
              clampScore e.experienceRelevanceScore * 0.3 +
              clampScore e.educationMatchScore * 0.15 +
              clampScore e.keywordDensityScore * 0.15)) ∧
      ∀ f : ResumeScore → ℚ,
        normalizeScoringResult
            { result with
              scores := result.scores.map (fun e => { e with compositeScore := f e }) }
            threshold =
          normalizeScoringResult result threshold := by
  constructor
  · intro e he
    obtain ⟨e₀, -, rfl⟩ := mem_normalize_scores h he
    show recomputeCompositeScore e₀ = _
    have hdim :
        recomputeCompositeScore (normalizeScoreEntry threshold e₀) =
          recomputeCompositeScore e₀ := rfl
    rw [← hdim]
    rfl
  · intro f
    unfold normalizeScoringResult
    have hmap :
        (result.scores.map (fun e => { e with compositeScore := f e })).map
            (normalizeScoreEntry threshold) =
          result.scores.map (normalizeScoreEntry threshold) := by
      rw [List.map_map]
      refine List.map_congr_left fun e _ => ?_
      cases e; rfl
    simp only [hmap]

/-- C3: the caller-supplied threshold is authoritative: every output entry's
`meetsThreshold` equals `threshold ≤ compositeScore` for the recomputed
composite, the output's `threshold` field is the caller-supplied value, and
the input's `meetsThreshold` flags, `bestMatchMeetsThreshold` flag and
`threshold` field are ignored (rewriting them does not change the result). -/
theorem threshold_recomputed_after_normalization
    (result : ScorerOutput) (threshold : ℚ) (out : ScorerOutput)
    (h : normalizeScoringResult result threshold = Except.ok out) :
    (∀ e ∈ out.scores, e.meetsThreshold = decide (threshold ≤ e.compositeScore)) ∧
      out.threshold = threshold ∧
      ∀ (g : ResumeScore → Bool) (b : Bool) (q : ℚ),
        normalizeScoringResult
            { result with
              scores := result.scores.map (fun e => { e with meetsThreshold := g e })
              bestMatchMeetsThreshold := b
              threshold := q }
            threshold =
          normalizeScoringResult result threshold := by
  obtain ⟨-, -, hthr, -⟩ := normalize_ok_shape h
  refine ⟨?_, hthr, ?_⟩
  · intro e he
    obtain ⟨e₀, -, rfl⟩ := mem_normalize_scores h he
    rfl
  · intro g b q
    unfold normalizeScoringResult
    have hmap :
        (result.scores.map (fun e => { e with meetsThreshold := g e })).map
            (normalizeScoreEntry threshold) =
          result.scores.map (normalizeScoreEntry threshold) := by
      rw [List.map_map]
      refine List.map_congr_left fun e _ => ?_
      cases e; rfl
    simp only [hmap]

/-- C4: whenever normalization succeeds, `bestMatch` is the first entry of
the sorted scores list and `bestMatchMeetsThreshold` is that entry's
`meetsThreshold` flag. -/
theorem bestMatch_consistency
    (result : ScorerOutput) (threshold : ℚ) (out : ScorerOutput)
    (h : normalizeScoringResult result threshold = Except.ok out) :
    (∃ rest, out.scores = out.bestMatch :: rest) ∧
      out.bestMatchMeetsThreshold = out.bestMatch.meetsThreshold := by
  obtain ⟨-, hb, -, hhead⟩ := normalize_ok_shape h
  exact ⟨hhead, hb⟩

/-- C5: normalization fails (with the no-score-items error) exactly on an
empty scores list, and returns successfully on every non-empty scores list. -/
theorem normalize_empty_iff_error (result : ScorerOutput) (threshold : ℚ) :
    (result.scores = [] →
        normalizeScoringResult result threshold =
          Except.error "Scoring agent returned no score items.") ∧
      (result.scores ≠ [] →
        ∃ out, normalizeScoringResult result threshold = Except.ok out) := by
  constructor
  · intro hnil
    unfold normalizeScoringResult
    rw [hnil]
    rfl
  · intro hne
    unfold normalizeScoringResult
    rcases hs : List.insertionSort scoreLE (result.scores.map (normalizeScoreEntry threshold)) with
      _ | ⟨best, rest⟩
    · exfalso
      have hlen := (List.perm_insertionSort scoreLE
        (result.scores.map (normalizeScoreEntry threshold))).length_eq
      rw [hs] at hlen
      simp only [List.length_nil, List.length_map] at hlen
      exact hne (List.length_eq_zero.mp hlen.symm)
    · exact ⟨_, rfl⟩

/-- C6: normalization is idempotent: normalizing an already-normalized output
with the same threshold returns it unchanged. -/
theorem normalize_idempotent
    (result : ScorerOutput) (threshold : ℚ) (out : ScorerOutput)
    (h : normalizeScoringResult result threshold = Except.ok out) :
    normalizeScoringResult out threshold = Except.ok out := by
  obtain ⟨hscores, hb, hthr, rest, hhead⟩ := normalize_ok_shape h
  have hsorted : List.Sorted scoreLE out.scores := by
    rw [hscores]
    exact List.sorted_insertionSort scoreLE _
  have hmap : out.scores.map (normalizeScoreEntry threshold) = out.scores := by
    have hfix : ∀ e ∈ out.scores, normalizeScoreEntry threshold e = id e := by
      intro e he
      obtain ⟨e₀, -, rfl⟩ := mem_normalize_scores h he
      exact normalizeScoreEntry_idem threshold e₀
    rw [List.map_congr_left hfix, List.map_id]
  unfold normalizeScoringResult
  rw [hmap, hsorted.insertionSort_eq, hhead]
  rcases out with ⟨s, bm, bmt, thr⟩
  simp only at hb hthr hhead
  simp [hb, hthr, hhead]

/-- Antisymmetry restricted to the members of a list suffices to make a
sorted permutation unique. -/
theorem sorted_perm_eq {r : ResumeScore → ResumeScore → Prop} :
    ∀ {l₁ l₂ : List ResumeScore}, l₁.Perm l₂ →
      l₁.Sorted r → l₂.Sorted r →
      (∀ a ∈ l₁, ∀ b ∈ l₁, r a b → r b a → a = b) →
      l₁ = l₂
  | [], l₂, hp, _, _, _ => hp.nil_eq
  | a :: t, [], hp, _, _, _ => absurd hp.symm.nil_eq (by simp)
  | a :: t, b :: t₂, hp, hs₁, hs₂, hanti => by
    have hab : a = b := by
      by_cases hcase : b = a
      · exact hcase.symm
      · have hbmem : b ∈ a :: t := hp.symm.subset (List.mem_cons_self b t₂)
        have hbt : b ∈ t := by
          rcases List.mem_cons.mp hbmem with h | h
          · exact absurd h hcase
          · exact h
        have hamem : a ∈ b :: t₂ := hp.subset (List.mem_cons_self a t)
        have hat : a ∈ t₂ := by
          rcases List.mem_cons.mp hamem with h | h
          · exact absurd h (fun hh => hcase hh.symm)
          · exact h
        have h₁ : r a b := (List.sorted_cons.mp hs₁).1 b hbt
        have h₂ : r b a := (List.sorted_cons.mp hs₂).1 a hat
        exact hanti a (List.mem_cons_self a t) b hbmem h₁ h₂
    subst hab
    have htail : t = t₂ :=
      sorted_perm_eq hp.cons_inv (List.sorted_cons.mp hs₁).2 (List.sorted_cons.mp hs₂).2
        (fun x hx y hy => hanti x (List.mem_cons_of_mem a hx) y (List.mem_cons_of_mem a hy))
    rw [htail]

/-- C2 (amended): the normalized scores list is sorted by recomputed
`compositeScore` descending with ties broken by lexicographically smaller
`id` first, and — provided the entries carry pairwise distinct ids — the
result is independent of the input order of the entries. -/
theorem deterministic_ordering :
    (∀ (result : ScorerOutput) (threshold : ℚ) (out : ScorerOutput),
        normalizeScoringResult result threshold = Except.ok out →
        out.scores.Pairwise fun a b =>
          b.compositeScore < a.compositeScore ∨
            (a.compositeScore = b.compositeScore ∧ strLe a.id b.id = true)) ∧
      ∀ (r₁ r₂ : ScorerOutput) (threshold : ℚ),
        r₁.scores.Perm r₂.scores →
        (r₁.scores.Pairwise fun a b => a.id ≠ b.id) →
        normalizeScoringResult r₁ threshold = normalizeScoringResult r₂ threshold := by
  constructor
  · intro result threshold out h
    obtain ⟨hscores, -, -, -⟩ := normalize_ok_shape h
    rw [hscores]
    exact List.sorted_insertionSort scoreLE _
  · intro r₁ r₂ threshold hperm hids
    have hmapperm :
        (r₁.scores.map (normalizeScoreEntry threshold)).Perm
          (r₂.scores.map (normalizeScoreEntry threshold)) :=
      hperm.map _
    have hsortperm :
        (List.insertionSort scoreLE (r₁.scores.map (normalizeScoreEntry threshold))).Perm
          (List.insertionSort scoreLE (r₂.scores.map (normalizeScoreEntry threshold))) :=
      ((List.perm_insertionSort scoreLE _).trans hmapperm).trans
        (List.perm_insertionSort scoreLE _).symm
    have hanti :
        ∀ a ∈ List.insertionSort scoreLE (r₁.scores.map (normalizeScoreEntry threshold)),
          ∀ b ∈ List.insertionSort scoreLE (r₁.scores.map (normalizeScoreEntry threshold)),
            scoreLE a b → scoreLE b a → a = b := by
      intro a ha b hb hab hba
      obtain ⟨a₀, ha₀, rfl⟩ :=
        List.mem_map.mp ((List.perm_insertionSort scoreLE _).subset ha)
      obtain ⟨b₀, hb₀, rfl⟩ :=
        List.mem_map.mp ((List.perm_insertionSort scoreLE _).subset hb)
      by_cases heq : a₀ = b₀
      · rw [heq]
      · exfalso
        have hideq : a₀.id = b₀.id := by
          rcases hab with h | ⟨hc, hs₁⟩

          · rcases hba with h' | ⟨hc', _⟩
            · exact absurd h' (lt_asymm h)
            · exact absurd h (by rw [hc'] ; exact lt_irrefl _)
          · rcases hba with h' | ⟨_, hs₂⟩
            · exact absurd h' (by rw [hc] ; exact lt_irrefl _)
            · exact strLe_antisymm hs₁ hs₂
        have hne : a₀.id ≠ b₀.id := by
          have hsym : Symmetric fun a b : ResumeScore => a.id ≠ b.id :=
            fun x y hxy => fun hh => hxy hh.symm
          exact List.Pairwise.forall hsym hids ha₀ hb₀ heq
        exact hne hideq
    have hsorteq :
        List.insertionSort scoreLE (r₁.scores.map (normalizeScoreEntry threshold)) =
          List.insertionSort scoreLE (r₂.scores.map (normalizeScoreEntry threshold)) :=
      sorted_perm_eq hsortperm (List.sorted_insertionSort scoreLE _)
        (List.sorted_insertionSort scoreLE _) hanti
    unfold normalizeScoringResult
    rw [hsorteq]

/-- Projection of every `ResumeScore` field except `compositeScore` and
`meetsThreshold` — the frame the normalizer must leave untouched. -/
def frameFields (e : ResumeScore) :
    String × ℚ × ℚ × String × ℚ × ℚ × String × ℚ × ℚ × String × ℚ × ℚ × String ×
      String × List String × List String × List String :=
  (e.id, e.skillsMatchScore, e.skillsMatchWeight, e.skillsMatchReasoning,
    e.experienceRelevanceScore, e.experienceRelevanceWeight, e.experienceRelevanceReasoning,
    e.educationMatchScore, e.educationMatchWeight, e.educationMatchReasoning,
    e.keywordDensityScore, e.keywordDensityWeight, e.keywordDensityReasoning,
    e.summary, e.matchedSkills, e.missingSkills, e.matchedKeywords)

/-- C10: normalization only rewrites each entry's `compositeScore` and
`meetsThreshold` and reorders the list: the output entries are a permutation
of the per-entry rewrites of the input entries, and the per-entry rewrite
leaves every other field — the four dimension scores, weights, reasoning
strings, `id`, `summary` and the three skill/keyword lists — unchanged. -/
theorem normalization_frame
    (result : ScorerOutput) (threshold : ℚ) (out : ScorerOutput)
    (h : normalizeScoringResult result threshold = Except.ok out) :
    out.scores.Perm (result.scores.map (normalizeScoreEntry threshold)) ∧
      ∀ e : ResumeScore, frameFields (normalizeScoreEntry threshold e) = frameFields e := by
  obtain ⟨hscores, -, -, -⟩ := normalize_ok_shape h
  constructor
  · rw [hscores]
    exact List.perm_insertionSort scoreLE _
  · intro e
    rfl

/-! ## Concrete evaluation helpers and sample data -/

theorem roundTo1_eval (q : ℚ) (z : ℤ) (h1 : (z : ℚ) ≤ q * 10 + 1/2)
    (h2 : q * 10 + 1/2 < z + 1) : roundTo1 q = (z : ℚ) / 10 := by
  unfold roundTo1 mathRound
  have hf : ⌊q * 10 + 1/2⌋ = z := by
    rw [Int.floor_eq_iff]
    exact ⟨h1, h2⟩
  rw [hf]

theorem clampScore_in_range (q : ℚ) (h0 : 0 ≤ q) (h1 : q ≤ 100) : clampScore q = q := by
  unfold clampScore
  rw [max_eq_right h0, min_eq_right h1]

/-- Sample entry A of the spec's end-to-end scenario: dimensions 90/85/80/70,
with a deliberately wrong externally-supplied composite and flag. -/
def sampleA : ResumeScore :=
  { id := "alex-chen.pdf"
    skillsMatchScore := 90, skillsMatchWeight := 0.4, skillsMatchReasoning := "strong"
    experienceRelevanceScore := 85, experienceRelevanceWeight := 0.3
    experienceRelevanceReasoning := "relevant"
    educationMatchScore := 80, educationMatchWeight := 0.15, educationMatchReasoning := "good"
    keywordDensityScore := 70, keywordDensityWeight := 0.15, keywordDensityReasoning := "ok"
    compositeScore := 10, summary := "candidate A"
    matchedSkills := ["ts"], missingSkills := [], matchedKeywords := ["react"]
    meetsThreshold := false }

/-- Sample entry B of the spec's end-to-end scenario: dimensions 40/50/60/30,
again with wrong externally-supplied composite and flag. -/
def sampleB : ResumeScore :=
  { id := "sarah-jones.pdf"
    skillsMatchScore := 40, skillsMatchWeight := 0.4, skillsMatchReasoning := "few"
    experienceRelevanceScore := 50, experienceRelevanceWeight := 0.3
    experienceRelevanceReasoning := "partial"
    educationMatchScore := 60, educationMatchWeight := 0.15, educationMatchReasoning := "some"
    keywordDensityScore := 30, keywordDensityWeight := 0.15, keywordDensityReasoning := "low"
    compositeScore := 99, summary := "candidate B"
    matchedSkills := [], missingSkills := ["ts"], matchedKeywords := []
    meetsThreshold := true }

def sampleNormA : ResumeScore :=
  { sampleA with compositeScore := 84, meetsThreshold := true }

def sampleNormB : ResumeScore :=
  { sampleB with compositeScore := 44.5, meetsThreshold := false }

/-- Scorer output as the external capability might return it: unsorted, with
a wrong best match, flag and threshold. -/
def sampleInput : ScorerOutput :=
  { scores := [sampleB, sampleA], bestMatch := sampleB
    bestMatchMeetsThreshold := true, threshold := 55 }

def sampleOut : ScorerOutput :=
  { scores := [sampleNormA, sampleNormB], bestMatch := sampleNormA
    bestMatchMeetsThreshold := true, threshold := 70 }

theorem recompute_sampleA : recomputeCompositeScore sampleA = 84 := by
  show roundTo1 (clampScore (90 : ℚ) * 0.4 + clampScore 85 * 0.3 +
    clampScore 80 * 0.15 + clampScore 70 * 0.15) = 84
  rw [clampScore_in_range 90 (by norm_num) (by norm_num),
    clampScore_in_range 85 (by norm_num) (by norm_num),
    clampScore_in_range 80 (by norm_num) (by norm_num),
    clampScore_in_range 70 (by norm_num) (by norm_num),
    roundTo1_eval _ 840 (by norm_num) (by norm_num)]
  norm_num

theorem recompute_sampleB : recomputeCompositeScore sampleB = 44.5 := by
  show roundTo1 (clampScore (40 : ℚ) * 0.4 + clampScore 50 * 0.3 +
    clampScore 60 * 0.15 + clampScore 30 * 0.15) = 44.5
  rw [clampScore_in_range 40 (by norm_num) (by norm_num),
    clampScore_in_range 50 (by norm_num) (by norm_num),
    clampScore_in_range 60 (by norm_num) (by norm_num),
    clampScore_in_range 30 (by norm_num) (by norm_num),
    roundTo1_eval _ 445 (by norm_num) (by norm_num)]
  norm_num

theorem normalizeEntry_sampleA : normalizeScoreEntry 70 sampleA = sampleNormA := by
  show { sampleA with
      compositeScore := recomputeCompositeScore sampleA
      meetsThreshold := decide ((70 : ℚ) ≤ recomputeCompositeScore sampleA) } = sampleNormA
  rw [recompute_sampleA, decide_eq_true (by norm_num : (70 : ℚ) ≤ 84)]
  rfl

theorem normalizeEntry_sampleB : normalizeScoreEntry 70 sampleB = sampleNormB := by
  show { sampleB with
      compositeScore := recomputeCompositeScore sampleB
      meetsThreshold := decide ((70 : ℚ) ≤ recomputeCompositeScore sampleB) } = sampleNormB
  rw [recompute_sampleB, decide_eq_false (by norm_num : ¬ (70 : ℚ) ≤ 44.5)]
  rfl

theorem not_scoreLE_B_A : ¬ scoreLE sampleNormB sampleNormA := by
  intro h
  rcases h with h | ⟨hc, _⟩
  · exact absurd (show (84 : ℚ) < 44.5 from h) (by norm_num)
  · exact absurd (show (44.5 : ℚ) = 84 from hc) (by norm_num)

/-- Evaluation of the normalizer on the spec's end-to-end scenario. -/
theorem normalize_sample : normalizeScoringResult sampleInput 70 = Except.ok sampleOut := by
  unfold normalizeScoringResult
  show (match List.insertionSort scoreLE
      (List.map (normalizeScoreEntry 70) [sampleB, sampleA]) with
    | [] => Except.error "Scoring agent returned no score items."
    | bestMatch :: rest =>
      Except.ok
        { sampleInput with
          scores := bestMatch :: rest
          bestMatch := bestMatch
          bestMatchMeetsThreshold := bestMatch.meetsThreshold
          threshold := 70 }) = Except.ok sampleOut
  rw [List.map_cons, List.map_cons, List.map_nil, normalizeEntry_sampleA,
    normalizeEntry_sampleB]
  rw [show List.insertionSort scoreLE [sampleNormB, sampleNormA] =
      [sampleNormA, sampleNormB] by
    show List.orderedInsert scoreLE sampleNormB
        (List.orderedInsert scoreLE sampleNormA []) = [sampleNormA, sampleNormB]
    rw [List.orderedInsert_nil]
    show (if scoreLE sampleNormB sampleNormA then [sampleNormB, sampleNormA]
      else sampleNormA :: List.orderedInsert scoreLE sampleNormB []) = [sampleNormA, sampleNormB]
    rw [if_neg not_scoreLE_B_A, List.orderedInsert_nil]]
  rfl

/-! ## Duplicate-id data: two entries that tie on composite and id but differ
in `summary`, exposing the input-order dependence of the sort. -/

def dupFirst : ResumeScore :=
  { id := "dup.pdf"
    skillsMatchScore := 50, skillsMatchWeight := 0.4, skillsMatchReasoning := ""
    experienceRelevanceScore := 50, experienceRelevanceWeight := 0.3
    experienceRelevanceReasoning := ""
    educationMatchScore := 50, educationMatchWeight := 0.15, educationMatchReasoning := ""
    keywordDensityScore := 50, keywordDensityWeight := 0.15, keywordDensityReasoning := ""
    compositeScore := 50, summary := "first"
    matchedSkills := [], missingSkills := [], matchedKeywords := []
    meetsThreshold := false }

def dupSecond : ResumeScore :=
  { dupFirst with summary := "second" }

def dupNormFirst : ResumeScore :=
  { dupFirst with compositeScore := 50, meetsThreshold := false }

def dupNormSecond : ResumeScore :=
  { dupSecond with compositeScore := 50, meetsThreshold := false }

def dupInputA : ScorerOutput :=
  { scores := [dupFirst, dupSecond], bestMatch := dupFirst
    bestMatchMeetsThreshold := false, threshold := 70 }

def dupInputB : ScorerOutput :=
  { scores := [dupSecond, dupFirst], bestMatch := dupFirst
    bestMatchMeetsThreshold := false, threshold := 70 }

theorem recompute_dupFirst : recomputeCompositeScore dupFirst = 50 := by
  show roundTo1 (clampScore (50 : ℚ) * 0.4 + clampScore 50 * 0.3 +
    clampScore 50 * 0.15 + clampScore 50 * 0.15) = 50
  rw [clampScore_in_range 50 (by norm_num) (by norm_num),
    roundTo1_eval _ 500 (by norm_num) (by norm_num)]
  norm_num

theorem normalizeEntry_dupFirst : normalizeScoreEntry 70 dupFirst = dupNormFirst := by
  show { dupFirst with
      compositeScore := recomputeCompositeScore dupFirst
      meetsThreshold := decide ((70 : ℚ) ≤ recomputeCompositeScore dupFirst) } = dupNormFirst
  rw [recompute_dupFirst, decide_eq_false (by norm_num : ¬ (70 : ℚ) ≤ 50)]
  rfl

theorem normalizeEntry_dupSecond : normalizeScoreEntry 70 dupSecond = dupNormSecond := by
  show { dupSecond with
      compositeScore := recomputeCompositeScore dupSecond
      meetsThreshold := decide ((70 : ℚ) ≤ recomputeCompositeScore dupSecond) } = dupNormSecond
  rw [show recomputeCompositeScore dupSecond = 50 from recompute_dupFirst,
    decide_eq_false (by norm_num : ¬ (70 : ℚ) ≤ 50)]
  rfl

theorem scoreLE_dup_tie (x y : ResumeScore)
    (hx : x.compositeScore = 50) (hy : y.compositeScore = 50)
    (hxy : x.id = "dup.pdf") (hyx : y.id = "dup.pdf") : scoreLE x y := by
  refine Or.inr ⟨by rw [hx, hy], ?_⟩
  rw [hxy, hyx]
  exact strLe_refl _

theorem normalize_dupA :
    normalizeScoringResult dupInputA 70 =
      Except.ok
        { scores := [dupNormFirst, dupNormSecond], bestMatch := dupNormFirst
          bestMatchMeetsThreshold := false, threshold := 70 } := by
  unfold normalizeScoringResult
  show (match List.insertionSort scoreLE
      (List.map (normalizeScoreEntry 70) [dupFirst, dupSecond]) with
    | [] => Except.error "Scoring agent returned no score items."
    | bestMatch :: rest =>
      Except.ok
        { dupInputA with
          scores := bestMatch :: rest
          bestMatch := bestMatch
          bestMatchMeetsThreshold := bestMatch.meetsThreshold
          threshold := 70 }) = _
  rw [List.map_cons, List.map_cons, List.map_nil, normalizeEntry_dupFirst,
    normalizeEntry_dupSecond]
  rw [show List.insertionSort scoreLE [dupNormFirst, dupNormSecond] =
      [dupNormFirst, dupNormSecond] by
    show List.orderedInsert scoreLE dupNormFirst
        (List.orderedInsert scoreLE dupNormSecond []) = _
    rw [List.orderedInsert_nil]
    show (if scoreLE dupNormFirst dupNormSecond then [dupNormFirst, dupNormSecond]
      else dupNormSecond :: List.orderedInsert scoreLE dupNormFirst []) = _
    rw [if_pos (scoreLE_dup_tie _ _ rfl rfl rfl rfl)]]
  rfl

theorem normalize_dupB :
    normalizeScoringResult dupInputB 70 =
      Except.ok
        { scores := [dupNormSecond, dupNormFirst], bestMatch := dupNormSecond
          bestMatchMeetsThreshold := false, threshold := 70 } := by
  unfold normalizeScoringResult
  show (match List.insertionSort scoreLE
      (List.map (normalizeScoreEntry 70) [dupSecond, dupFirst]) with
    | [] => Except.error "Scoring agent returned no score items."
    | bestMatch :: rest =>
      Except.ok
        { dupInputB with
          scores := bestMatch :: rest
          bestMatch := bestMatch
          bestMatchMeetsThreshold := bestMatch.meetsThreshold
          threshold := 70 }) = _
  rw [List.map_cons, List.map_cons, List.map_nil, normalizeEntry_dupFirst,
    normalizeEntry_dupSecond]
  rw [show List.insertionSort scoreLE [dupNormSecond, dupNormFirst] =
      [dupNormSecond, dupNormFirst] by
    show List.orderedInsert scoreLE dupNormSecond
        (List.orderedInsert scoreLE dupNormFirst []) = _
    rw [List.orderedInsert_nil]
    show (if scoreLE dupNormSecond dupNormFirst then [dupNormSecond, dupNormFirst]
      else dupNormFirst :: List.orderedInsert scoreLE dupNormSecond []) = _
    rw [if_pos (scoreLE_dup_tie _ _ rfl rfl rfl rfl)]]
  rfl

/-- C2 counterexample: two inputs whose scores lists are permutations of each
other (two entries sharing the same id, tying on composite, differing in
`summary`) normalize to different outputs, so the output order is not
independent of the input order for arbitrary `ScorerOutput`s. -/
theorem deterministic_ordering_cex :
    dupInputA.scores.Perm dupInputB.scores ∧
      normalizeScoringResult dupInputA 70 ≠ normalizeScoringResult dupInputB 70 := by
  constructor
  · exact List.Perm.swap dupSecond dupFirst []
  · intro h
    rw [normalize_dupA, normalize_dupB] at h
    have hout := Except.ok.inj h
    have hsum : "first" = "second" := congrArg (fun o => o.bestMatch.summary) hout
    exact absurd hsum (by decide)

/-! ## Witnesses for the normalizer claims -/

/-- Witness for C1 at the spec's end-to-end scenario. -/
theorem composite_formula_witness :
    normalizeScoringResult sampleInput 70 = Except.ok sampleOut ∧
      ∀ e ∈ sampleOut.scores,
        e.compositeScore =
          roundTo1
            (clampScore e.skillsMatchScore * 0.4 +
              clampScore e.experienceRelevanceScore * 0.3 +
              clampScore e.educationMatchScore * 0.15 +
              clampScore e.keywordDensityScore * 0.15) :=
  ⟨normalize_sample,
    (composite_formula_after_normalization sampleInput 70 sampleOut normalize_sample).1⟩

/-- Witness for C2 (amended) at the spec's end-to-end scenario and at the
swapped input. -/
theorem deterministic_ordering_witness :
    (sampleOut.scores.Pairwise fun a b =>
        b.compositeScore < a.compositeScore ∨
          (a.compositeScore = b.compositeScore ∧ strLe a.id b.id = true)) ∧
      normalizeScoringResult sampleInput 70 =
        normalizeScoringResult
          { scores := [sampleA, sampleB], bestMatch := sampleB
            bestMatchMeetsThreshold := true, threshold := 55 } 70 :=
  ⟨deterministic_ordering.1 sampleInput 70 sampleOut normalize_sample,
    deterministic_ordering.2 sampleInput
      { scores := [sampleA, sampleB], bestMatch := sampleB
        bestMatchMeetsThreshold := true, threshold := 55 } 70
      (List.Perm.swap sampleA sampleB [])
      (by
        refine List.pairwise_cons.mpr ⟨?_, List.pairwise_singleton _ _⟩
        intro b hb
        rw [List.mem_singleton.mp hb]
        show "sarah-jones.pdf" ≠ "alex-chen.pdf"
        decide)⟩

/-- Witness for C3 at the spec's end-to-end scenario. -/
theorem threshold_recomputed_witness :
    (∀ e ∈ sampleOut.scores, e.meetsThreshold = decide (70 ≤ e.compositeScore)) ∧
      sampleOut.threshold = 70 :=
  ⟨(threshold_recomputed_after_normalization sampleInput 70 sampleOut normalize_sample).1,
    (threshold_recomputed_after_normalization sampleInput 70 sampleOut normalize_sample).2.1⟩

/-- Witness for C4 at the spec's end-to-end scenario. -/
theorem bestMatch_consistency_witness :
    (∃ rest, sampleOut.scores = sampleOut.bestMatch :: rest) ∧
      sampleOut.bestMatchMeetsThreshold = sampleOut.bestMatch.meetsThreshold :=
  bestMatch_consistency sampleInput 70 sampleOut normalize_sample

/-- Witness for C5: the empty input fails, the sample input succeeds. -/
theorem normalize_empty_iff_error_witness :
    normalizeScoringResult
        { scores := [], bestMatch := sampleA, bestMatchMeetsThreshold := false
          threshold := 70 } 70 =
        Except.error "Scoring agent returned no score items." ∧
      ∃ out, normalizeScoringResult sampleInput 70 = Except.ok out :=
  ⟨(normalize_empty_iff_error
      { scores := [], bestMatch := sampleA, bestMatchMeetsThreshold := false
        threshold := 70 } 70).1 rfl,
    (normalize_empty_iff_error sampleInput 70).2 (fun h => List.noConfusion h)⟩

/-- Witness for C6 at the spec's end-to-end scenario. -/
theorem normalize_idempotent_witness :
    normalizeScoringResult sampleOut 70 = Except.ok sampleOut :=
  normalize_idempotent sampleInput 70 sampleOut normalize_sample

/-- Witness for C10 at the spec's end-to-end scenario. -/
theorem normalization_frame_witness :
    sampleOut.scores.Perm (sampleInput.scores.map (normalizeScoreEntry 70)) ∧
      ∀ e : ResumeScore, frameFields (normalizeScoreEntry 70 e) = frameFields e :=
  normalization_frame sampleInput 70 sampleOut normalize_sample

/-! ## Resume structurer: untrusted values and tolerant normalization
(src/src/lib/mastra/agents/resumeStructurerAgent.ts lines 56-188)

`RawValue` models an arbitrary JavaScript value as produced by `JSON.parse`
(plus `undefined` for missing properties and non-finite numbers, which the
helpers treat via `Number.isFinite`). -/

inductive RawValue where
  | str (s : String)
  | num (q : ℚ)
  | nan
  | inf (pos : Bool)
  | boolean (b : Bool)
  | nullv
  | undefined
  | arr (items : List RawValue)
  | obj (fields : List (String × RawValue))

/-- Source `asString` (always called with the default fallback `""`). -/
def asString (value : RawValue) : String :=
  match value with
  | .str s => s
  | _ => ""

/-- Source `asNullableString`. -/
def asNullableString (value : RawValue) : Option String :=
  match value with
  | .str s => some s
  | _ => none

/-- Source `asNullableNumber`: a number that passes `Number.isFinite`,
otherwise `null`. -/
def asNullableNumber (value : RawValue) : Option ℚ :=
  match value with
  | .num q => some q
  | _ => none

/-- Source `asStringArray`: keep only the string elements of an array. -/
def asStringArray (value : RawValue) : List String :=
  match value with
  | .arr items =>
    items.filterMap fun item =>
      match item with
      | .str s => some s
      | _ => none
  | _ => []

/-- JavaScript truthiness, used for `Boolean(item.isCurrent)` and the
`Boolean(item)` part of the array filters. -/
def truthy (value : RawValue) : Bool :=
  match value with
  | .str s => s ≠ ""
  | .num q => q ≠ 0
  | .nan => false
  | .inf _ => true
  | .boolean b => b
  | .nullv => false
  | .undefined => false
  | .arr _ => true
  | .obj _ => true

/-- `typeof value === "object" && Boolean(value)` for the array-item filters:
plain objects and arrays pass, everything else (including null) is dropped. -/
def isObjLike (value : RawValue) : Bool :=
  match value with
  | .obj _ => true
  | .arr _ => true
  | _ => false

/-- Named-property view of a value: objects expose their fields, every other
value (including arrays, whose relevant named properties are absent) exposes
none. -/
def fieldsOf (value : RawValue) : List (String × RawValue) :=
  match value with
  | .obj fields => fields
  | _ => []

/-- JavaScript property access `o[key]`: a missing property is `undefined`;
for duplicate keys (as resolved by `JSON.parse`) the last occurrence wins. -/
def getField (fields : List (String × RawValue)) (key : String) : RawValue :=
  match fields.reverse.find? (fun p => p.1 == key) with
  | some p => p.2
  | none => .undefined

/-- `Array.isArray(value) ? value : []`. -/
def asItemsArray (value : RawValue) : List RawValue :=
  match value with
  | .arr items => items
  | _ => []

/-- Model of `String.prototype.toLowerCase` (character-wise lower-casing). -/
def jsToLower (s : String) : String :=
  String.mk (s.toList.map Char.toLower)

/-- The `typeof value === "string" ? value.toLowerCase() : ""` prelude shared
by the four enum mappers. -/
def rawLower (value : RawValue) : String :=
  match value with
  | .str s => jsToLower s
  | _ => ""

/-- Source `mapSkillCategory`. -/
def mapSkillCategory (value : RawValue) : String :=
  let raw := rawLower value
  if raw = "soft" then "soft"
  else if raw = "domain" then "domain"
  else if raw = "tool" then "tool"
  else if raw = "language" then "language"
  else if raw = "certification" then "certification"
  else if raw = "framework" ∨ raw = "cloud" ∨ raw = "backend" ∨ raw = "database" ∨
      raw = "architecture" ∨ raw = "ai" then "technical"
  else "technical"

/-- Source `mapSkillProficiency`. -/
def mapSkillProficiency (value : RawValue) : String :=
  let raw := rawLower value
  if raw = "foundational" then "foundational"
  else if raw = "working" ∨ raw = "intermediate" then "working"
  else if raw = "advanced" then "advanced"
  else if raw = "expert" then "expert"
  else "unspecified"

/-- Source `mapExperienceLevel`. -/
def mapExperienceLevel (value : RawValue) : String :=
  let raw := rawLower value
  if raw = "entry" ∨ raw = "mid" ∨ raw = "senior" ∨ raw = "lead" ∨ raw = "executive" then raw
  else "unspecified"

/-- Source `mapEducationLevel`. -/
def mapEducationLevel (value : RawValue) : String :=
  let raw := rawLower value
  if raw = "high_school" ∨ raw = "associates" ∨ raw = "bachelors" ∨ raw = "masters" ∨
      raw = "phd" ∨ raw = "bootcamp" ∨ raw = "certificate" then raw
  else "unspecified"

structure SkillEntry where
  name : String
  category : String
  proficiency : String
  yearsExperience : Option ℚ
deriving DecidableEq

structure WorkExperienceEntry where
  company : Option String
  title : String
  location : Option String
  startDate : Option String
  endDate : Option String
  isCurrent : Bool
  summary : String
  accomplishments : List String
  technologies : List String
deriving DecidableEq

structure ProjectEntry where
  name : String
  role : Option String
  summary : String
  technologies : List String
  outcomes : List String
deriving DecidableEq

structure EducationEntry where
  institution : Option String
  degree : Option String
  fieldOfStudy : Option String
  educationLevel : String
  startYear : Option ℚ
  endYear : Option ℚ
deriving DecidableEq

structure CertificationEntry where
  name : String
  issuer : Option String
  issuedYear : Option ℚ
  expiresYear : Option ℚ
deriving DecidableEq

structure StructuredResume where
  candidateName : Option String
  headline : Option String
  email : Option String
  phone : Option String
  location : Option String
  linkedinUrl : Option String
  githubUrl : Option String
  portfolioUrl : Option String
  roleSummary : String
  experienceLevel : String
  totalYearsExperience : Option ℚ
  skills : List SkillEntry
  coreSkills : List String
  toolsAndTechnologies : List String
  domainExpertise : List String
  workExperience : List WorkExperienceEntry
  projects : List ProjectEntry
  education : List EducationEntry
  certifications : List CertificationEntry
  achievements : List String
  keywords : List String
deriving DecidableEq

/-- Source `normalizeStructuredResume`. The final in-place replacement of an
empty `roleSummary` by the placeholder is folded into the field computation
(observationally identical). -/
def normalizeStructuredResume (raw : RawValue) : StructuredResume :=
  let source := fieldsOf raw
  let skillsInput := asItemsArray (getField source "skills")
  let workInput := asItemsArray (getField source "workExperience")
  let projectsInput := asItemsArray (getField source "projects")
  let educationInput := asItemsArray (getField source "education")
  let certificationsInput := asItemsArray (getField source "certifications")
  let roleSummaryRaw := asString (getField source "roleSummary")
  { candidateName := asNullableString (getField source "candidateName")
    headline := asNullableString (getField source "headline")
    email := asNullableString (getField source "email")
    phone := asNullableString (getField source "phone")
    location := asNullableString (getField source "location")
    linkedinUrl := asNullableString (getField source "linkedinUrl")
    githubUrl := asNullableString (getField source "githubUrl")
    portfolioUrl := asNullableString (getField source "portfolioUrl")
    roleSummary := if roleSummaryRaw = "" then "Profile summary unavailable." else roleSummaryRaw
    experienceLevel := mapExperienceLevel (getField source "experienceLevel")
    totalYearsExperience := asNullableNumber (getField source "totalYearsExperience")
    skills :=
      (skillsInput.filter isObjLike).map fun item =>
        { name := asString (getField (fieldsOf item) "name")
          category := mapSkillCategory (getField (fieldsOf item) "category")
          proficiency := mapSkillProficiency (getField (fieldsOf item) "proficiency")
          yearsExperience := asNullableNumber (getField (fieldsOf item) "yearsExperience") }
    coreSkills := asStringArray (getField source "coreSkills")
    toolsAndTechnologies := asStringArray (getField source "toolsAndTechnologies")
    domainExpertise := asStringArray (getField source "domainExpertise")
    workExperience :=
      (workInput.filter isObjLike).map fun item =>
        { company := asNullableString (getField (fieldsOf item) "company")
          title := asString (getField (fieldsOf item) "title")
          location := asNullableString (getField (fieldsOf item) "location")
          startDate := asNullableString (getField (fieldsOf item) "startDate")
          endDate := asNullableString (getField (fieldsOf item) "endDate")
          isCurrent := truthy (getField (fieldsOf item) "isCurrent")
          summary := asString (getField (fieldsOf item) "summary")
          accomplishments := asStringArray (getField (fieldsOf item) "accomplishments")
          technologies := asStringArray (getField (fieldsOf item) "technologies") }
    projects :=
      (projectsInput.filter isObjLike).map fun item =>
        { name := asString (getField (fieldsOf item) "name")
          role := asNullableString (getField (fieldsOf item) "role")
          summary := asString (getField (fieldsOf item) "summary")
          technologies := asStringArray (getField (fieldsOf item) "technologies")
          outcomes := asStringArray (getField (fieldsOf item) "outcomes") }
    education :=
      (educationInput.filter isObjLike).map fun item =>
        { institution := asNullableString (getField (fieldsOf item) "institution")
          degree := asNullableString (getField (fieldsOf item) "degree")
          fieldOfStudy := asNullableString (getField (fieldsOf item) "fieldOfStudy")
          educationLevel := mapEducationLevel (getField (fieldsOf item) "educationLevel")
          startYear := asNullableNumber (getField (fieldsOf item) "startYear")
          endYear := asNullableNumber (getField (fieldsOf item) "endYear") }
    certifications :=
      (certificationsInput.filter isObjLike).map fun item =>
        { name := asString (getField (fieldsOf item) "name")
          issuer := asNullableString (getField (fieldsOf item) "issuer")
          issuedYear := asNullableNumber (getField (fieldsOf item) "issuedYear")
          expiresYear := asNullableNumber (getField (fieldsOf item) "expiresYear") }
    achievements := asStringArray (getField source "achievements")
    keywords := asStringArray (getField source "keywords") }

/-! ### Lemmas on the enum mappers -/

theorem mapExperienceLevel_mem (value : RawValue) :
    mapExperienceLevel value ∈
      (["entry", "mid", "senior", "lead", "executive", "unspecified"] : List String) := by
  simp only [mapExperienceLevel]
  split
  case isTrue h => rcases h with h | h | h | h | h <;> simp [h]
  case isFalse _ => simp

theorem mapExperienceLevel_default (value : RawValue)
    (h : rawLower value ∉ (["entry", "mid", "senior", "lead", "executive"] : List String)) :
    mapExperienceLevel value = "unspecified" := by
  simp only [mapExperienceLevel]
  rw [if_neg]
  intro hc
  rcases hc with hc | hc | hc | hc | hc <;> simp [hc] at h

theorem mapEducationLevel_mem (value : RawValue) :
    mapEducationLevel value ∈
      (["high_school", "associates", "bachelors", "masters", "phd", "bootcamp",
        "certificate", "unspecified"] : List String) := by
  simp only [mapEducationLevel]
  split
  case isTrue h => rcases h with h | h | h | h | h | h | h <;> simp [h]
  case isFalse _ => simp

theorem mapEducationLevel_default (value : RawValue)
    (h : rawLower value ∉
      (["high_school", "associates", "bachelors", "masters", "phd", "bootcamp",
        "certificate"] : List String)) :
    mapEducationLevel value = "unspecified" := by
  simp only [mapEducationLevel]
  rw [if_neg]
  intro hc
  rcases hc with hc | hc | hc | hc | hc | hc | hc <;> simp [hc] at h

theorem mapSkillProficiency_mem (value : RawValue) :
    mapSkillProficiency value ∈
      (["foundational", "working", "advanced", "expert", "unspecified"] : List String) := by
  simp only [mapSkillProficiency]
  split_ifs <;> simp

theorem mapSkillProficiency_default (value : RawValue)
    (h : rawLower value ∉
      (["foundational", "working", "intermediate", "advanced", "expert"] : List String)) :
    mapSkillProficiency value = "unspecified" := by
  simp only [mapSkillProficiency]
  rw [if_neg, if_neg, if_neg, if_neg]
  · intro hc; simp [hc] at h
  · intro hc; simp [hc] at h
  · intro hc; rcases hc with hc | hc <;> simp [hc] at h
  · intro hc; simp [hc] at h

theorem mapSkillCategory_mem (value : RawValue) :
    mapSkillCategory value ∈
      (["technical", "soft", "domain", "tool", "language", "certification"] : List String) := by
  simp only [mapSkillCategory]
  split_ifs <;> simp

theorem mapSkillCategory_default (value : RawValue)
    (h : rawLower value ∉
      (["soft", "domain", "tool", "language", "certification", "framework", "cloud",
        "backend", "database", "architecture", "ai"] : List String)) :
    mapSkillCategory value = "technical" := by
  simp only [mapSkillCategory]
  rw [if_neg, if_neg, if_neg, if_neg, if_neg]
  · split
    · rfl
    · rfl
  · intro hc; simp [hc] at h
  · intro hc; simp [hc] at h
  · intro hc; simp [hc] at h
  · intro hc; simp [hc] at h
  · intro hc; simp [hc] at h

/-- C8: the tolerant normalizer coerces unrecognized or missing enum-like
values to their defined defaults without raising (the normalizer is a total
function), and every enum-like field of the normalized output lies in its
allowed set. -/
theorem enum_defaulting (raw v₁ v₂ v₃ v₄ : RawValue)
    (h₁ : rawLower v₁ ∉ (["entry", "mid", "senior", "lead", "executive"] : List String))
    (h₂ : rawLower v₂ ∉
      (["high_school", "associates", "bachelors", "masters", "phd", "bootcamp",
        "certificate"] : List String))
    (h₃ : rawLower v₃ ∉
      (["foundational", "working", "intermediate", "advanced", "expert"] : List String))
    (h₄ : rawLower v₄ ∉
      (["soft", "domain", "tool", "language", "certification", "framework", "cloud",
        "backend", "database", "architecture", "ai"] : List String)) :
    mapExperienceLevel v₁ = "unspecified" ∧
      mapEducationLevel v₂ = "unspecified" ∧
      mapSkillProficiency v₃ = "unspecified" ∧
      mapSkillCategory v₄ = "technical" ∧
      (normalizeStructuredResume raw).experienceLevel ∈
        (["entry", "mid", "senior", "lead", "executive", "unspecified"] : List String) ∧
      (∀ ed ∈ (normalizeStructuredResume raw).education,
        ed.educationLevel ∈
          (["high_school", "associates", "bachelors", "masters", "phd", "bootcamp",
            "certificate", "unspecified"] : List String)) ∧
      ∀ sk ∈ (normalizeStructuredResume raw).skills,
        sk.proficiency ∈
            (["foundational", "working", "advanced", "expert", "unspecified"] : List String) ∧
          sk.category ∈
            (["technical", "soft", "domain", "tool", "language", "certification"] :
              List String) := by
  refine ⟨mapExperienceLevel_default v₁ h₁, mapEducationLevel_default v₂ h₂,
    mapSkillProficiency_default v₃ h₃, mapSkillCategory_default v₄ h₄,
    mapExperienceLevel_mem _, ?_, ?_⟩
  · intro ed hed
    simp only [normalizeStructuredResume, List.mem_map] at hed
    obtain ⟨item, -, rfl⟩ := hed
    exact mapEducationLevel_mem _
  · intro sk hsk
    simp only [normalizeStructuredResume, List.mem_map] at hsk
    obtain ⟨item, -, rfl⟩ := hsk
    exact ⟨mapSkillProficiency_mem _, mapSkillCategory_mem _⟩

/-- Witness for C8: a raw object carrying junk enum values, and concrete
unrecognized/missing raw values for the four mappers. -/
theorem enum_defaulting_witness :
    mapExperienceLevel (.str "Wizard") = "unspecified" ∧
      mapEducationLevel .undefined = "unspecified" ∧
      mapSkillProficiency (.num 3) = "unspecified" ∧
      mapSkillCategory (.str "magic") = "technical" ∧
      (normalizeStructuredResume
          (.obj [("experienceLevel", .str "wizard"),
            ("education", .arr [.obj [("educationLevel", .str "kindergarten")]]),
            ("skills", .arr [.obj [("category", .str "magic"),
              ("proficiency", .nullv)]])])).experienceLevel ∈
        (["entry", "mid", "senior", "lead", "executive", "unspecified"] : List String) ∧
      (∀ ed ∈ (normalizeStructuredResume
          (.obj [("experienceLevel", .str "wizard"),
            ("education", .arr [.obj [("educationLevel", .str "kindergarten")]]),
            ("skills", .arr [.obj [("category", .str "magic"),
              ("proficiency", .nullv)]])])).education,
        ed.educationLevel ∈
          (["high_school", "associates", "bachelors", "masters", "phd", "bootcamp",
            "certificate", "unspecified"] : List String)) ∧
      ∀ sk ∈ (normalizeStructuredResume
          (.obj [("experienceLevel", .str "wizard"),
            ("education", .arr [.obj [("educationLevel", .str "kindergarten")]]),
            ("skills", .arr [.obj [("category", .str "magic"),
              ("proficiency", .nullv)]])])).skills,
        sk.proficiency ∈
            (["foundational", "working", "advanced", "expert", "unspecified"] : List String) ∧
          sk.category ∈
            (["technical", "soft", "domain", "tool", "language", "certification"] :
              List String) :=
  enum_defaulting
    (.obj [("experienceLevel", .str "wizard"),
      ("education", .arr [.obj [("educationLevel", .str "kindergarten")]]),
      ("skills", .arr [.obj [("category", .str "magic"), ("proficiency", .nullv)]])])
    (.str "Wizard") .undefined (.num 3) (.str "magic")
    (by decide) (by decide) (by decide) (by decide)

/-! ## JSON-recovery parser `extractJsonObject`
(src/src/lib/mastra/agents/resumeStructurerAgent.ts lines 33-54)

`JSON.parse` is a platform builtin the repository does not implement, so it
is a parameter `jparse : String → Option J` (`none` models a thrown
`SyntaxError`).  `String.prototype.trim` is modelled by `jsTrim`, and the
fenced-code-block regex `/(three backticks)(?:json)?\s*([\s\S]*?)\s*(three
backticks)/i` by `fenceInner`: content between the first fence (after an
optional case-insensitive `json` tag) and the next fence, which is what the
leftmost lazy match yields once the surrounding `\s*` is re-trimmed (the
source trims group 1 again); a fence that never closes is treated as no
match. -/

/-- The whitespace class trimmed by `String.prototype.trim` (restricted to
the common ASCII whitespace). -/
def isJsWhitespace (c : Char) : Bool :=
  c = ' ' || c = '\t' || c = '\n' || c = '\r'

/-- Model of `String.prototype.trim`. -/
def jsTrim (s : String) : String :=
  String.mk (((s.toList.dropWhile isJsWhitespace).reverse.dropWhile isJsWhitespace).reverse)

/-- Does `pat` occur at the head of the list? -/
def listBeginsWith : List Char → List Char → Bool
  | [], _ => true
  | _ :: _, [] => false
  | p :: ps, c :: cs => if p = c then listBeginsWith ps cs else false

/-- `String.prototype.indexOf` for a pattern: index of the first occurrence. -/
def findSub (pat : List Char) : List Char → Option Nat
  | [] => if listBeginsWith pat [] then some 0 else none
  | c :: rest =>
    if listBeginsWith pat (c :: rest) then some 0
    else (findSub pat rest).map (· + 1)

/-- The optional case-insensitive `json` language tag after the opening
fence: `(?:json)?` consumes it greedily when present. -/
def stripJsonTag (cs : List Char) : List Char :=
  if (cs.take 4).map Char.toLower = ['j', 's', 'o', 'n'] then cs.drop 4 else cs

/-- Group 1 of the fenced-block regex (with its surrounding whitespace,
which the caller trims away): the content between the first fence, after the
optional tag, and the next fence. -/
def fenceInner (cs : List Char) : Option (List Char) :=
  (findSub ['`', '`', '`'] cs).bind fun i =>
    (findSub ['`', '`', '`'] (stripJsonTag (cs.drop (i + 3)))).map fun j =>
      (stripJsonTag (cs.drop (i + 3))).take j

/-- The first-`{`-to-last-`}` slice: `indexOf("{")`, `lastIndexOf("}")`,
defined when the first brace exists and the last `}` lies strictly after it
(`lastBrace > firstBrace` in the source). -/
def braceSlice (cs : List Char) : Option (List Char) :=
  match findSub ['{'] cs, findSub ['}'] cs.reverse with
  | some i, some k =>
    if i < cs.length - 1 - k then
      some ((cs.drop i).take ((cs.length - 1 - k) - i + 1))
    else none
  | _, _ => none

/-- The candidate string of the fallback path:
`fencedMatch?.[1]?.trim() ?? trimmed`. -/
def fallbackCandidate (trimmed : String) : String :=
  match fenceInner trimmed.toList with
  | some inner => jsTrim (String.mk inner)
  | none => trimmed

/-- Source `extractJsonObject`: direct parse of the trimmed text; on failure
extract a fenced block (or fall back to the whole trimmed text), slice from
the first `{` to the last `}` and parse that; a parse failure of the slice
propagates (the source's second `JSON.parse` throws out of the catch). -/
def extractJsonObject {J : Type} (jparse : String → Option J) (text : String) :
    Except String J :=
  let trimmed := jsTrim text
  if trimmed = "" then Except.error "Resume structurer returned empty output."
  else
    match jparse trimmed with
    | some v => Except.ok v
    | none =>
      match braceSlice (fallbackCandidate trimmed).toList with
      | some sliced =>
        match jparse (String.mk sliced) with
        | some v => Except.ok v
        | none => Except.error "Unexpected token in JSON at the fallback parse"
      | none => Except.error "Resume structurer did not return valid JSON."

/-! ### Lemmas on the fallback machinery -/

theorem listBeginsWith_append_self : ∀ pat rest : List Char,
    listBeginsWith pat (pat ++ rest) = true
  | [], _ => rfl
  | p :: ps, rest => by simp [listBeginsWith, listBeginsWith_append_self ps rest]

theorem findSub_none_of_no_head (hd : Char) (pt : List Char) :
    ∀ l : List Char, (∀ c ∈ l, c ≠ hd) → findSub (hd :: pt) l = none
  | [], _ => by simp [findSub, listBeginsWith]
  | c :: rest, hl => by
    have hc : c ≠ hd := hl c (List.mem_cons_self c rest)
    have hhd : hd ≠ c := fun h => hc h.symm
    simp only [findSub]
    rw [if_neg (by simp [listBeginsWith, hhd]),
      findSub_none_of_no_head hd pt rest (fun x hx => hl x (List.mem_cons_of_mem c hx))]
    rfl

theorem findSub_at_append (hd : Char) (pt : List Char) :
    ∀ l : List Char, ∀ r : List Char, (∀ c ∈ l, c ≠ hd) →
      findSub (hd :: pt) (l ++ ((hd :: pt) ++ r)) = some l.length
  | [], r, _ => by
    rw [List.nil_append]
    simp only [findSub]
    rw [if_pos (by simpa using listBeginsWith_append_self (hd :: pt) r)]
    rfl
  | c :: l, r, hl => by
    have hc : c ≠ hd := hl c (List.mem_cons_self c l)
    have hhd : hd ≠ c := fun h => hc h.symm
    rw [List.cons_append]
    simp only [findSub]
    rw [if_neg (by simp [listBeginsWith, hhd]),
      findSub_at_append hd pt l r (fun x hx => hl x (List.mem_cons_of_mem c hx))]
    rfl

theorem findSub_fence_start (X : List Char) :
    findSub ['`', '`', '`'] ('`' :: '`' :: '`' :: X) = some 0 := by
  simp [findSub, listBeginsWith]

theorem stripJsonTag_json (X : List Char) :
    stripJsonTag ('j' :: 's' :: 'o' :: 'n' :: X) = X := by
  unfold stripJsonTag
  have hc : (('j' :: 's' :: 'o' :: 'n' :: X).take 4).map Char.toLower =
      ['j', 's', 'o', 'n'] := rfl
  rw [if_pos hc]
  rfl

theorem stripJsonTag_newline (X : List Char) :
    stripJsonTag ('\n' :: X) = '\n' :: X := by
  unfold stripJsonTag
  rw [if_neg]
  intro h
  rw [show ('\n' :: X).take 4 = '\n' :: X.take 3 from rfl, List.map_cons] at h
  injection h with h1 _
  exact absurd h1 (by decide)

theorem fenceInner_none_of_no_backtick (cs : List Char) (h : ∀ c ∈ cs, c ≠ '`') :
    fenceInner cs = none := by
  unfold fenceInner
  rw [findSub_none_of_no_head '`' ['`', '`'] cs h]
  rfl

/-- The character list of a fenced block's inner span splits before the
closing fence. -/
theorem fence_tail_split (s : String) :
    '\n' :: (s.toList ++ ['\n', '`', '`', '`']) =
      ('\n' :: s.toList ++ ['\n']) ++ (('`' :: ['`', '`']) ++ []) := by
  simp

theorem fence_inner_chars (s : String) (hnb : ∀ c ∈ s.toList, c ≠ '`') :
    ∀ c ∈ '\n' :: s.toList ++ ['\n'], c ≠ '`' := by
  intro c hc
  rcases List.mem_cons.mp hc with rfl | hc
  · decide
  · rcases List.mem_append.mp hc with hc | hc
    · exact hnb c hc
    · rw [List.mem_singleton.mp hc]
      decide

theorem fenceInner_wrapped_tag (s : String) (hnb : ∀ c ∈ s.toList, c ≠ '`') :
    fenceInner (("```json\n" ++ s ++ "\n```").toList) =
      some ('\n' :: s.toList ++ ['\n']) := by
  have hshape : ("```json\n" ++ s ++ "\n```").toList =
      '`' :: '`' :: '`' :: ('j' :: 's' :: 'o' :: 'n' :: '\n' ::
        (s.toList ++ ['\n', '`', '`', '`'])) := rfl
  rw [hshape]
  unfold fenceInner
  rw [findSub_fence_start, Option.some_bind]
  rw [show ('`' :: '`' :: '`' :: ('j' :: 's' :: 'o' :: 'n' :: '\n' ::
      (s.toList ++ ['\n', '`', '`', '`']))).drop (0 + 3) =
      'j' :: 's' :: 'o' :: 'n' :: ('\n' :: (s.toList ++ ['\n', '`', '`', '`'])) from rfl]
  rw [stripJsonTag_json, fence_tail_split,
    findSub_at_append '`' ['`', '`'] _ _ (fence_inner_chars s hnb), Option.map_some',
    List.take_left]

theorem fenceInner_wrapped_bare (s : String) (hnb : ∀ c ∈ s.toList, c ≠ '`') :
    fenceInner (("```\n" ++ s ++ "\n```").toList) =
      some ('\n' :: s.toList ++ ['\n']) := by
  have hshape : ("```\n" ++ s ++ "\n```").toList =
      '`' :: '`' :: '`' :: ('\n' :: (s.toList ++ ['\n', '`', '`', '`'])) := rfl
  rw [hshape]
  unfold fenceInner
  rw [findSub_fence_start, Option.some_bind]
  rw [show ('`' :: '`' :: '`' :: ('\n' :: (s.toList ++ ['\n', '`', '`', '`']))).drop (0 + 3) =
      '\n' :: (s.toList ++ ['\n', '`', '`', '`']) from rfl]
  rw [stripJsonTag_newline, fence_tail_split,
    findSub_at_append '`' ['`', '`'] _ _ (fence_inner_chars s hnb), Option.map_some',
    List.take_left]

theorem braceSlice_of_shape (p₁ mid p₂ : List Char)
    (h₁ : ∀ c ∈ p₁, c ≠ '{') (h₂ : ∀ c ∈ p₂, c ≠ '}') :
    braceSlice (p₁ ++ ('{' :: mid ++ ['}']) ++ p₂) = some ('{' :: mid ++ ['}']) := by
  have hfind1 : findSub ['{'] (p₁ ++ ('{' :: mid ++ ['}']) ++ p₂) = some p₁.length := by
    have h := findSub_at_append '{' [] p₁ ((mid ++ ['}']) ++ p₂) h₁
    simpa [List.append_assoc] using h
  have hfind2 :
      findSub ['}'] ((p₁ ++ ('{' :: mid ++ ['}']) ++ p₂)).reverse = some p₂.length := by
    have h := findSub_at_append '}' [] p₂.reverse ((mid.reverse ++ ['{']) ++ p₁.reverse)
      (fun c hc => h₂ c (List.mem_reverse.mp hc))
    simpa [List.reverse_append, List.append_assoc] using h
  have hlen : (p₁ ++ ('{' :: mid ++ ['}']) ++ p₂).length =
      p₁.length + (mid.length + 2) + p₂.length := by
    simp
    omega
  unfold braceSlice
  rw [hfind1, hfind2]
  show (if p₁.length < (p₁ ++ ('{' :: mid ++ ['}']) ++ p₂).length - 1 - p₂.length then
      some (((p₁ ++ ('{' :: mid ++ ['}']) ++ p₂).drop p₁.length).take
        (((p₁ ++ ('{' :: mid ++ ['}']) ++ p₂).length - 1 - p₂.length) - p₁.length + 1))
    else none) = some ('{' :: mid ++ ['}'])
  rw [hlen, if_pos (by omega)]
  rw [show p₁.length + (mid.length + 2) + p₂.length - 1 - p₂.length - p₁.length + 1 =
    mid.length + 2 from by omega]
  have hdrop : (p₁ ++ ('{' :: mid ++ ['}']) ++ p₂).drop p₁.length =
      ('{' :: mid ++ ['}']) ++ p₂ := by
    have h := List.drop_left p₁ (('{' :: mid ++ ['}']) ++ p₂)
    rw [List.append_assoc]
    exact h
  rw [hdrop]
  have htake : (('{' :: mid ++ ['}']) ++ p₂).take (mid.length + 2) = '{' :: mid ++ ['}'] := by
    have h := List.take_left ('{' :: mid ++ ['}']) p₂
    simpa using h
  rw [htake]

/-! ### Evaluation helpers for `extractJsonObject` -/

theorem extract_direct {J : Type} (jparse : String → Option J) (text : String) (v : J)
    (hne : jsTrim text ≠ "") (hok : jparse (jsTrim text) = some v) :
    extractJsonObject jparse text = Except.ok v := by
  unfold extractJsonObject
  rw [if_neg hne, hok]

theorem extract_of_fallback {J : Type} (jparse : String → Option J) (text : String)
    (v : J) (sub : List Char) (hne : jsTrim text ≠ "")
    (hfail : jparse (jsTrim text) = none)
    (hslice : braceSlice (fallbackCandidate (jsTrim text)).toList = some sub)
    (hsub : jparse (String.mk sub) = some v) :
    extractJsonObject jparse text = Except.ok v := by
  unfold extractJsonObject
  rw [if_neg hne, hfail, hslice]
  show (match jparse (String.mk sub) with
    | some v => Except.ok v
    | none => Except.error "Unexpected token in JSON at the fallback parse") = Except.ok v
  rw [hsub]

theorem extract_error {J : Type} (jparse : String → Option J) (text : String)
    (hfail : jparse (jsTrim text) = none)
    (hsl : ∀ sub, braceSlice (fallbackCandidate (jsTrim text)).toList = some sub →
      jparse (String.mk sub) = none) :
    ∃ msg, extractJsonObject jparse text = Except.error msg := by
  unfold extractJsonObject
  by_cases hne : jsTrim text = ""
  · rw [if_pos hne]
    exact ⟨_, rfl⟩
  · rw [if_neg hne, hfail]
    rcases hbs : braceSlice (fallbackCandidate (jsTrim text)).toList with _ | sub
    · exact ⟨_, rfl⟩
    · show ∃ msg, (match jparse (String.mk sub) with
        | some v => Except.ok v
        | none => Except.error "Unexpected token in JSON at the fallback parse") =
        Except.error msg
      rw [hsl sub hbs]
      exact ⟨_, rfl⟩

/-- C7: the JSON-recovery parser extracts the same object from (a) the plain
JSON object text, (b) the text wrapped in a fenced code block with or without
a `json` language tag, and (c) the text preceded and/or followed by prose
(free of braces and backticks); on text whose trimmed form and brace slice
both fail to parse, it raises an error.  `jparse` is the platform's
`JSON.parse`, constrained only by which of the involved strings it parses. -/
theorem extractJsonObject_resilient {J : Type} (jparse : String → Option J) (v : J)
    (s p₁ p₂ g : String) (mid : List Char)
    (hmid : s.toList = '{' :: mid ++ ['}'])
    (hs : jsTrim s = s)
    (hnb : ∀ c ∈ s.toList, c ≠ '`')
    (hp₁ : ∀ c ∈ p₁.toList, c ≠ '{' ∧ c ≠ '}' ∧ c ≠ '`')
    (hp₂ : ∀ c ∈ p₂.toList, c ≠ '{' ∧ c ≠ '}' ∧ c ≠ '`')
    (hct : jsTrim (p₁ ++ s ++ p₂) = p₁ ++ s ++ p₂)
    (ht1 : jsTrim ("```json\n" ++ s ++ "\n```") = "```json\n" ++ s ++ "\n```")
    (ht2 : jsTrim ("```\n" ++ s ++ "\n```") = "```\n" ++ s ++ "\n```")
    (hin : jsTrim ("\n" ++ s ++ "\n") = s)
    (hj : jparse s = some v)
    (hw1 : jparse ("```json\n" ++ s ++ "\n```") = none)
    (hw2 : jparse ("```\n" ++ s ++ "\n```") = none)
    (hpr : jparse (p₁ ++ s ++ p₂) = none)
    (hg1 : jparse (jsTrim g) = none)
    (hg2 : ∀ sub, braceSlice (fallbackCandidate (jsTrim g)).toList = some sub →
      jparse (String.mk sub) = none) :
    extractJsonObject jparse s = Except.ok v ∧
      extractJsonObject jparse ("```json\n" ++ s ++ "\n```") = Except.ok v ∧
      extractJsonObject jparse ("```\n" ++ s ++ "\n```") = Except.ok v ∧
      extractJsonObject jparse (p₁ ++ s ++ p₂) = Except.ok v ∧
      ∃ msg, extractJsonObject jparse g = Except.error msg := by
  have hsne : s ≠ "" := by
    intro h
    rw [h] at hmid
    exact List.noConfusion hmid
  have hbrace : braceSlice s.toList = some s.toList := by
    rw [hmid]
    have h := braceSlice_of_shape [] mid [] (by simp) (by simp)
    simpa using h
  have ha : extractJsonObject jparse s = Except.ok v := by
    refine extract_direct jparse s v ?_ ?_
    · rw [hs]; exact hsne
    · rw [hs]; exact hj
  have hwne1 : ("```json\n" ++ s ++ "\n```") ≠ "" := by
    intro h
    have h' := congrArg String.toList h
    rw [show ("```json\n" ++ s ++ "\n```").toList =
      '`' :: '`' :: '`' :: ('j' :: 's' :: 'o' :: 'n' :: '\n' ::
        (s.toList ++ ['\n', '`', '`', '`'])) from rfl] at h'
    exact List.noConfusion h'
  have hwne2 : ("```\n" ++ s ++ "\n```") ≠ "" := by
    intro h
    have h' := congrArg String.toList h
    rw [show ("```\n" ++ s ++ "\n```").toList =
      '`' :: '`' :: '`' :: ('\n' :: (s.toList ++ ['\n', '`', '`', '`'])) from rfl] at h'
    exact List.noConfusion h'
  have hcand1 : fallbackCandidate ("```json\n" ++ s ++ "\n```") = s := by
    unfold fallbackCandidate
    rw [fenceInner_wrapped_tag s hnb]
    show jsTrim (String.mk ('\n' :: s.toList ++ ['\n'])) = s
    rw [show String.mk ('\n' :: s.toList ++ ['\n']) = "\n" ++ s ++ "\n" from rfl]
    exact hin
  have hcand2 : fallbackCandidate ("```\n" ++ s ++ "\n```") = s := by
    unfold fallbackCandidate
    rw [fenceInner_wrapped_bare s hnb]
    show jsTrim (String.mk ('\n' :: s.toList ++ ['\n'])) = s
    rw [show String.mk ('\n' :: s.toList ++ ['\n']) = "\n" ++ s ++ "\n" from rfl]
    exact hin
  have hb1 : extractJsonObject jparse ("```json\n" ++ s ++ "\n```") = Except.ok v := by
    refine extract_of_fallback jparse _ v s.toList ?_ ?_ ?_ hj
    · rw [ht1]; exact hwne1
    · rw [ht1]; exact hw1
    · rw [ht1, hcand1]; exact hbrace
  have hb2 : extractJsonObject jparse ("```\n" ++ s ++ "\n```") = Except.ok v := by
    refine extract_of_fallback jparse _ v s.toList ?_ ?_ ?_ hj
    · rw [ht2]; exact hwne2
    · rw [ht2]; exact hw2
    · rw [ht2, hcand2]; exact hbrace
  have hsplit : (p₁ ++ s ++ p₂).toList = (p₁.toList ++ s.toList) ++ p₂.toList := by
    show ((p₁ ++ s) ++ p₂).data = (p₁.data ++ s.data) ++ p₂.data
    rw [String.data_append, String.data_append]
  have hcharsC : ∀ c ∈ (p₁ ++ s ++ p₂).toList, c ≠ '`' := by
    intro c hc
    rw [hsplit] at hc
    rcases List.mem_append.mp hc with hc | hc
    · rcases List.mem_append.mp hc with hc | hc
      · exact (hp₁ c hc).2.2
      · exact hnb c hc
    · exact (hp₂ c hc).2.2
  have hcandc : fallbackCandidate (p₁ ++ s ++ p₂) = p₁ ++ s ++ p₂ := by
    unfold fallbackCandidate
    rw [fenceInner_none_of_no_backtick _ hcharsC]
  have hbrC : braceSlice (p₁ ++ s ++ p₂).toList = some s.toList := by
    rw [hsplit, hmid]
    exact braceSlice_of_shape p₁.toList mid p₂.toList
      (fun c hc => (hp₁ c hc).1) (fun c hc => (hp₂ c hc).2.1)
  have hcne : (p₁ ++ s ++ p₂) ≠ "" := by
    intro h
    have h' := congrArg String.toList h
    rw [hsplit] at h'
    have h₁ := List.append_eq_nil.mp h'
    have h₂ := List.append_eq_nil.mp h₁.1
    rw [h₂.2] at hmid
    exact List.noConfusion hmid
  have hc : extractJsonObject jparse (p₁ ++ s ++ p₂) = Except.ok v := by
    refine extract_of_fallback jparse _ v s.toList ?_ ?_ ?_ hj
    · rw [hct]; exact hcne
    · rw [hct]; exact hpr
    · rw [hct, hcandc]; exact hbrC
  exact ⟨ha, hb1, hb2, hc, extract_error jparse g hg1 hg2⟩

/-- An exact-match stand-in for the platform JSON parser, used only to
instantiate the resilience theorem at concrete inputs. -/
def jsonExactParse : String → Option Nat :=
  fun t => if t = "{a: 1}" then some 1 else none

/-- Witness for C7 at a concrete object text, its two fenced wrappings, a
prose wrapping, and a garbage input. -/
theorem extractJsonObject_resilient_witness :
    extractJsonObject jsonExactParse "{a: 1}" = Except.ok 1 ∧
      extractJsonObject jsonExactParse ("```json\n" ++ "{a: 1}" ++ "\n```") = Except.ok 1 ∧
      extractJsonObject jsonExactParse ("```\n" ++ "{a: 1}" ++ "\n```") = Except.ok 1 ∧
      extractJsonObject jsonExactParse
          ("Here is the JSON: " ++ "{a: 1}" ++ " Done.") = Except.ok 1 ∧
      ∃ msg, extractJsonObject jsonExactParse "no json here" = Except.error msg :=
  extractJsonObject_resilient jsonExactParse 1 "{a: 1}" "Here is the JSON: " " Done."
    "no json here" ['a', ':', ' ', '1']
    (by decide) (by decide) (by decide) (by decide) (by decide) (by decide) (by decide)
    (by decide) (by decide) (by decide) (by decide) (by decide) (by decide) (by decide)
    (by
      intro sub h
      rw [show braceSlice (fallbackCandidate (jsTrim "no json here")).toList = none from
        by decide] at h
      exact Option.noConfusion h)

/-! ## Workflow orchestrator steps (src/unnamed/part_005 lines 17, 72-137,
171-212)

The external agents (`parseJobPosting`, `scoreResumes`) are parameters; the
job-posting and structured-resume payloads are abstract types. -/

inductive Operation where
  | parseJob
  | parseResumes
  | score
  | evaluate
deriving DecidableEq

structure ResumeInput where
  id : String
  text : String
deriving DecidableEq

/-- The parsed workflow input: `jobPostingText` is optional but non-empty
when present (`z.string().min(1).optional()`), `resumes` defaults to `[]`,
`threshold` to 70. -/
structure WorkflowInput (JP : Type) where
  operation : Operation
  jobPostingText : Option String
  jobPosting : Option JP
  resumes : List ResumeInput
  threshold : ℚ

structure StepContext (JP : Type) where
  operation : Operation
  jobPosting : Option JP
  resumes : List ResumeInput
  threshold : ℚ

/-- The job-posting resolution at the head of `parseJobStep`:
`inputData.jobPosting ?? null`, then `parseJobPosting(jobPostingText)` when
null and text is present (a parse failure propagates). -/
def resolveJobPosting {JP : Type} (parseJobPosting : String → Except String JP)
    (inputData : WorkflowInput JP) : Except String (Option JP) :=
  match inputData.jobPosting with
  | some jp => Except.ok (some jp)
  | none =>
    match inputData.jobPostingText with
    | some txt => (parseJobPosting txt).map some
    | none => Except.ok none

/-- Source `parseJobStep.execute`: resolve the job posting, then enforce the
two preconditions in order — job posting required for score/evaluate,
at least one resume required for parseResumes/score/evaluate. -/
def parseJobStep {JP : Type} (parseJobPosting : String → Except String JP)
    (inputData : WorkflowInput JP) : Except String (StepContext JP) :=
  match resolveJobPosting parseJobPosting inputData with
  | Except.error e => Except.error e
  | Except.ok jobPosting =>
    if (inputData.operation = .score ∨ inputData.operation = .evaluate) ∧ jobPosting.isNone then
      Except.error "A job posting is required for score/evaluate operations."
    else if (inputData.operation = .score ∨ inputData.operation = .evaluate ∨
        inputData.operation = .parseResumes) ∧ inputData.resumes = [] then
      Except.error "At least one resume is required for parseResumes/score/evaluate operations."
    else
      Except.ok
        { operation := inputData.operation
          jobPosting := jobPosting
          resumes := inputData.resumes
          threshold := inputData.threshold }

structure ScoreStepInput (JP SR : Type) where
  operation : Operation
  jobPosting : Option JP
  resumes : List ResumeInput
  threshold : ℚ
  structuredResumes : List (String × SR)

structure ScoredContext (JP SR : Type) where
  operation : Operation
  jobPosting : Option JP
  structuredResumes : List (String × SR)
  threshold : ℚ
  scoringResult : Option ScorerOutput

/-- Source `scoreResumesStep.execute`: pass through when the operation does
not score; otherwise require a resolved job posting and invoke the scorer. -/
def scoreResumesStep {JP SR : Type}
    (scoreResumesFn : JP → List ResumeInput → ℚ → Except String ScorerOutput)
    (inputData : ScoreStepInput JP SR) : Except String (ScoredContext JP SR) :=
  if ¬(inputData.operation = .score ∨ inputData.operation = .evaluate) then
    Except.ok
      { operation := inputData.operation
        jobPosting := inputData.jobPosting
        structuredResumes := inputData.structuredResumes
        threshold := inputData.threshold
        scoringResult := none }
  else
    match inputData.jobPosting with
    | none => Except.error "A parsed job posting is required before scoring."
    | some jp =>
      (scoreResumesFn jp inputData.resumes inputData.threshold).map fun scoringResult =>
        { operation := inputData.operation
          jobPosting := inputData.jobPosting
          structuredResumes := inputData.structuredResumes
          threshold := inputData.threshold
          scoringResult := some scoringResult }

/-- C9 (amended): the orchestrator's precondition checks.  Score/evaluate
with no pre-supplied job posting and no job text fail with the
missing-job-posting error; parseResumes/score/evaluate with an empty resumes
list fail with the missing-resumes error provided the missing-job check does
not fire first (it takes precedence); and the scoring step independently
fails when reached without a resolved job posting. -/
theorem operation_preconditions :
    (∀ (JP : Type) (parseJobPosting : String → Except String JP)
        (inputData : WorkflowInput JP),
        (inputData.operation = .score ∨ inputData.operation = .evaluate) →
        inputData.jobPosting = none → inputData.jobPostingText = none →
        parseJobStep parseJobPosting inputData =
          Except.error "A job posting is required for score/evaluate operations.") ∧
      (∀ (JP : Type) (parseJobPosting : String → Except String JP)
          (inputData : WorkflowInput JP) (resolved : Option JP),
        resolveJobPosting parseJobPosting inputData = Except.ok resolved →
        (inputData.operation = .parseResumes ∨ resolved.isSome) →
        (inputData.operation = .parseResumes ∨ inputData.operation = .score ∨
          inputData.operation = .evaluate) →
        inputData.resumes = [] →
        parseJobStep parseJobPosting inputData =
          Except.error
            "At least one resume is required for parseResumes/score/evaluate operations.") ∧
      ∀ (JP SR : Type)
        (scoreResumesFn : JP → List ResumeInput → ℚ → Except String ScorerOutput)
        (inputData : ScoreStepInput JP SR),
        (inputData.operation = .score ∨ inputData.operation = .evaluate) →
        inputData.jobPosting = none →
        scoreResumesStep scoreResumesFn inputData =
          Except.error "A parsed job posting is required before scoring." := by
  refine ⟨?_, ?_, ?_⟩
  · intro JP parseJobPosting inputData hop hjob htext
    have hres : resolveJobPosting parseJobPosting inputData = Except.ok none := by
      unfold resolveJobPosting
      rw [hjob, htext]
    unfold parseJobStep
    rw [hres]
    show (if (inputData.operation = .score ∨ inputData.operation = .evaluate) ∧
        (none : Option JP).isNone then
        Except.error "A job posting is required for score/evaluate operations."
      else _) = _
    rw [if_pos ⟨hop, rfl⟩]
  · intro JP parseJobPosting inputData resolved hres hok hop hempty
    unfold parseJobStep
    rw [hres]
    show (if (inputData.operation = .score ∨ inputData.operation = .evaluate) ∧
        resolved.isNone then
        Except.error "A job posting is required for score/evaluate operations."
      else if (inputData.operation = .score ∨ inputData.operation = .evaluate ∨
          inputData.operation = .parseResumes) ∧ inputData.resumes = [] then
        Except.error
          "At least one resume is required for parseResumes/score/evaluate operations."
      else _) = _
    rw [if_neg, if_pos]
    · refine ⟨?_, hempty⟩
      rcases hop with h | h | h
      · exact Or.inr (Or.inr h)
      · exact Or.inl h
      · exact Or.inr (Or.inl h)
    · rintro ⟨hop', hnone⟩
      rcases hok with h | h
      · rcases hop' with h' | h' <;> rw [h] at h' <;> exact Operation.noConfusion h'
      · rcases resolved with _ | jp
        · exact Bool.noConfusion h
        · exact Bool.noConfusion hnone
  · intro JP SR scoreResumesFn inputData hop hjob
    unfold scoreResumesStep
    rw [if_neg (fun hn => hn hop), hjob]

/-- C9 counterexample: requesting `score` with no job posting, no job text
and an empty resumes list raises the missing-job-posting error, not the
missing-resumes error the claim promises for every empty-resumes request. -/
theorem operation_preconditions_cex :
    parseJobStep (fun _ => (Except.error "unused" : Except String Unit))
        { operation := .score, jobPostingText := none, jobPosting := none,
          resumes := [], threshold := 70 } =
      Except.error "A job posting is required for score/evaluate operations." ∧
      "A job posting is required for score/evaluate operations." ≠
        "At least one resume is required for parseResumes/score/evaluate operations." :=
  ⟨rfl, by decide⟩

/-- Witness for C9 at concrete inputs for each of the three preconditions. -/
theorem operation_preconditions_witness :
    parseJobStep (fun _ => (Except.error "unused" : Except String Unit))
        { operation := .evaluate, jobPostingText := none, jobPosting := none,
          resumes := [⟨"r.pdf", "resume text"⟩], threshold := 70 } =
      Except.error "A job posting is required for score/evaluate operations." ∧
      parseJobStep (fun _ => (Except.error "unused" : Except String Unit))
          { operation := .parseResumes, jobPostingText := none, jobPosting := none,
            resumes := [], threshold := 70 } =
        Except.error
          "At least one resume is required for parseResumes/score/evaluate operations." ∧
      scoreResumesStep (fun _ _ _ => Except.error "unused")
          { operation := .score, jobPosting := (none : Option Unit),
            resumes := [], threshold := 70,
            structuredResumes := ([] : List (String × Unit)) } =
        Except.error "A parsed job posting is required before scoring." :=
  ⟨operation_preconditions.1 Unit _ _ (Or.inr rfl) rfl rfl,
    operation_preconditions.2.1 Unit _ _ none rfl (Or.inl rfl) (Or.inl rfl) rfl,
    operation_preconditions.2.2 Unit Unit _ _ (Or.inl rfl) rfl⟩

end ResumeMatcher
